import Mathlib

/-!
Verification of `extract_loudest_section_python.py`.

The script's numeric core is embedded shallowly over `ℚ` (exact arithmetic,
executable): a sample buffer is a `List (List ℚ)` (frames × channels), a mono
signal is a `List ℚ`, Python integers become `Nat`/`Int`.  The sliding-window
loop of the two locator functions becomes a `List.foldl` over the same index
range the Python `for` loop visits, with the loop state
`(current_volume_sum, loudest_volume, loudest_start_index)`.  Window lengths
and sample counts are `Nat`: every call site of the locator supplies a
nonnegative `desired_samples`.
-/

namespace ExtractLoudest

/-- Sum of squared amplitudes of a sample list: the value of
`np.sum(np.square(xs))`, the "volume" measure the locator ranks by. -/
def sumSquares (xs : List ℚ) : ℚ := (xs.map (fun x => x * x)).sum

/-- One iteration of the sliding-window loop body (source lines 49–57 and
86–94): subtract the square of the trailing sample `input_samples[i-1]`, add
the square of the leading sample `input_samples[i + desired_samples - 1]`,
and update the best-seen volume and start index on strict improvement.
The state is `(current_volume_sum, loudest_volume, loudest_start_index)`. -/
def slideStep (input_samples : List ℚ) (desired_samples : Nat)
    (st : ℚ × ℚ × Nat) (i : Nat) : ℚ × ℚ × Nat :=
  let trailing_value := input_samples.getD (i - 1) 0
  let leading_value := input_samples.getD (i + desired_samples - 1) 0
  let current_volume_sum :=
    st.1 - trailing_value * trailing_value + leading_value * leading_value
  if st.2.1 < current_volume_sum then
    (current_volume_sum, current_volume_sum, i)
  else
    (current_volume_sum, st.2.1, st.2.2)

/-- The whole sliding loop: `current_volume_sum` is initialised to the sum of
squares over the first window `input_samples[0:desired_samples]` (lines 45/82),
and the loop runs over `range(1, input_size - desired_samples + 1)`
(lines 49/86), i.e. over `List.range' 1 (input_size - desired_samples)`. -/
def locate_fold (input_samples : List ℚ) (desired_samples : Nat) : ℚ × ℚ × Nat :=
  (List.range' 1 (input_samples.length - desired_samples)).foldl
    (slideStep input_samples desired_samples)
    (sumSquares (input_samples.take desired_samples),
     sumSquares (input_samples.take desired_samples), 0)

/-- Embedding of `trim_to_loudest_segment` (source lines 27–60).  Returns
`(0, input_size)` when `desired_samples >= input_size`, otherwise the start
index found by the sliding loop and `start + desired_samples`. -/
def trim_to_loudest_segment (input_samples : List ℚ) (desired_samples : Nat) :
    Nat × Nat :=
  if input_samples.length ≤ desired_samples then (0, input_samples.length)
  else
    ((locate_fold input_samples desired_samples).2.2,
     (locate_fold input_samples desired_samples).2.2 + desired_samples)

/-- Embedding of `trim_to_loudest_segment_indices` (source lines 62–97).  The
Python body is character-for-character the same as `trim_to_loudest_segment`,
so the embedding is the same expression. -/
def trim_to_loudest_segment_indices (input_samples : List ℚ)
    (desired_samples : Nat) : Nat × Nat :=
  if input_samples.length ≤ desired_samples then (0, input_samples.length)
  else
    ((locate_fold input_samples desired_samples).2.2,
     (locate_fold input_samples desired_samples).2.2 + desired_samples)

/-- Energy (sum of squared amplitudes) of the window `xs[j : j + d]`. -/
def windowEnergy (xs : List ℚ) (j d : Nat) : ℚ :=
  sumSquares ((xs.drop j).take d)

/-- A left-to-right scan that evaluates `e` afresh at every index `1..m`,
keeping the first strictly greatest value seen (the brute-force reference
scan; `e 0` seeds the accumulator).  State: `(best value, best index)`. -/
def scanMax (e : Nat → ℚ) (m : Nat) : ℚ × Nat :=
  (List.range' 1 m).foldl
    (fun acc i => if acc.1 < e i then (e i, i) else acc) (e 0, 0)

/-- Reference implementation of the locator following the spec's words: the
energy of every window is recomputed from scratch (`windowEnergy` re-sums the
squares of the window's samples at each step), ties broken leftmost. -/
def brute_force_loudest_indices (xs : List ℚ) (d : Nat) : Nat × Nat :=
  if xs.length ≤ d then (0, xs.length)
  else
    ((scanMax (fun j => sumSquares ((xs.drop j).take d)) (xs.length - d)).2,
     (scanMax (fun j => sumSquares ((xs.drop j).take d)) (xs.length - d)).2 + d)

lemma trim_degenerate (xs : List ℚ) (d : Nat) (h : xs.length ≤ d) :
    trim_to_loudest_segment_indices xs d = (0, xs.length) := by
  unfold trim_to_loudest_segment_indices
  rw [if_pos h]

lemma sumSquares_append (l₁ l₂ : List ℚ) :
    sumSquares (l₁ ++ l₂) = sumSquares l₁ + sumSquares l₂ := by
  simp [sumSquares]

lemma sumSquares_take_succ (xs : List ℚ) (k : Nat) (hk : k < xs.length) :
    sumSquares (xs.take (k + 1))
      = sumSquares (xs.take k) + xs.getD k 0 * xs.getD k 0 := by
  rw [List.take_succ, List.getElem?_eq_getElem hk, Option.toList_some,
    sumSquares_append, List.getD_eq_getElem?_getD, List.getElem?_eq_getElem hk]
  simp [sumSquares]

lemma take_add_split (xs : List ℚ) (j d : Nat) :
    xs.take (j + d) = xs.take j ++ (xs.drop j).take d := by
  conv_lhs => rw [← List.take_append_drop j (xs.take (j + d))]
  rw [List.take_take, min_eq_left (Nat.le_add_right j d), ← List.take_drop]

lemma sumSquares_take_add (xs : List ℚ) (j d : Nat) :
    sumSquares (xs.take (j + d)) = sumSquares (xs.take j) + windowEnergy xs j d := by
  rw [take_add_split, sumSquares_append]
  rfl

/-- Exact-arithmetic telescoping: subtracting the departing square and adding
the entering square moves the window energy from start `k` to start `k + 1`. -/
lemma windowEnergy_succ (xs : List ℚ) (d k : Nat) (h : k + 1 + d ≤ xs.length) :
    windowEnergy xs (k + 1) d
      = windowEnergy xs k d - xs.getD k 0 * xs.getD k 0
        + xs.getD (k + d) 0 * xs.getD (k + d) 0 := by
  have h1 : k < xs.length := by omega
  have h2 : k + d < xs.length := by omega
  have e1 := sumSquares_take_add xs k d
  have e2 := sumSquares_take_add xs (k + 1) d
  have t1 := sumSquares_take_succ xs k h1
  have t2 := sumSquares_take_succ xs (k + d) h2
  have hkd : k + 1 + d = (k + d) + 1 := by omega
  rw [hkd] at e2
  linarith

lemma scanMax_succ (e : Nat → ℚ) (m : Nat) :
    scanMax e (m + 1)
      = if (scanMax e m).1 < e (m + 1) then (e (m + 1), m + 1) else scanMax e m := by
  unfold scanMax
  rw [List.range'_1_concat, List.foldl_append]
  simp [Nat.add_comm]

lemma scanMax_spec (e : Nat → ℚ) (m : Nat) :
    (scanMax e m).2 ≤ m ∧ (scanMax e m).1 = e (scanMax e m).2 ∧
      (∀ j, j ≤ m → e j ≤ (scanMax e m).1) ∧
      (∀ j, j < (scanMax e m).2 → e j < (scanMax e m).1) := by
  induction m with
  | zero =>
    refine ⟨Nat.le_refl 0, rfl, ?_, ?_⟩
    · intro j hj
      have hj0 : j = 0 := Nat.le_zero.mp hj
      subst hj0
      exact le_refl _
    · intro j hj
      exact absurd hj (by simp [scanMax])
  | succ k ih =>
    obtain ⟨h1, h2, h3, h4⟩ := ih
    rw [scanMax_succ]
    split_ifs with h
    · refine ⟨Nat.le_refl _, rfl, ?_, ?_⟩
      · intro j hj
        rcases Nat.lt_or_ge j (k + 1) with hj2 | hj2
        · exact le_of_lt (lt_of_le_of_lt (h3 j (by omega)) h)
        · have hje : j = k + 1 := by omega
          subst hje
          exact le_refl _
      · intro j hj
        exact lt_of_le_of_lt (h3 j (by omega)) h
    · refine ⟨Nat.le_succ_of_le h1, h2, ?_, h4⟩
      intro j hj
      rcases Nat.lt_or_ge j (k + 1) with hj2 | hj2
      · exact h3 j (by omega)
      · have hje : j = k + 1 := by omega
        subst hje
        exact not_lt.mp h

/-- Loop invariant: after `m` iterations of the sliding loop, the first state
component is the (exactly) recomputed energy of the window starting at `m`,
and the best-seen pair coincides with the brute-force scan over `0..m`. -/
lemma locate_fold_eq (xs : List ℚ) (d : Nat) :
    ∀ m : Nat, m + d ≤ xs.length →
      (List.range' 1 m).foldl (slideStep xs d)
          (sumSquares (xs.take d), sumSquares (xs.take d), 0)
        = (windowEnergy xs m d, scanMax (fun j => windowEnergy xs j d) m) := by
  intro m
  induction m with
  | zero => intro _; rfl
  | succ k ih =>
    intro hm
    have hk : k + d ≤ xs.length := by omega
    rw [List.range'_1_concat, List.foldl_append, ih hk, scanMax_succ]
    have hE := windowEnergy_succ xs d k hm
    have hi3 : 1 + k = k + 1 := by omega
    have hi4 : k + 1 - 1 = k := by omega
    have hi5 : k + 1 + d - 1 = k + d := by omega
    simp only [List.foldl_cons, List.foldl_nil, slideStep, hi3, hi4, hi5]
    rw [← hE]
    split_ifs with h
    · rfl
    · rfl

lemma locate_fold_spec (xs : List ℚ) (d : Nat) (hd : d < xs.length) :
    locate_fold xs d
      = (windowEnergy xs (xs.length - d) d,
         scanMax (fun j => windowEnergy xs j d) (xs.length - d)) :=
  locate_fold_eq xs d (xs.length - d) (by omega)

/-- In the non-degenerate case the locator returns the index found by the
brute-force scan of all window energies, paired with that index plus `d`. -/
lemma trim_indices_eq (xs : List ℚ) (d : Nat) (hd : d < xs.length) :
    trim_to_loudest_segment_indices xs d
      = ((scanMax (fun j => windowEnergy xs j d) (xs.length - d)).2,
         (scanMax (fun j => windowEnergy xs j d) (xs.length - d)).2 + d) := by
  unfold trim_to_loudest_segment_indices
  rw [if_neg (by omega), locate_fold_spec xs d hd]

/-- The returned range is always valid: `start ≤ end ≤ length`. -/
lemma trim_range_valid (xs : List ℚ) (d : Nat) :
    (trim_to_loudest_segment_indices xs d).1
        ≤ (trim_to_loudest_segment_indices xs d).2 ∧
      (trim_to_loudest_segment_indices xs d).2 ≤ xs.length := by
  rcases Nat.lt_or_ge d xs.length with hd | hd
  · rw [trim_indices_eq xs d hd]
    have hs := (scanMax_spec (fun j => windowEnergy xs j d) (xs.length - d)).1
    constructor
    · exact Nat.le_add_right _ _
    · omega
  · rw [trim_degenerate xs d hd]
    exact ⟨Nat.zero_le _, Nat.le_refl _⟩

/-- C3: For every input sequence and every `desired_samples ≥ length(input)`
(including the empty input), `trim_to_loudest_segment_indices` returns exactly
`(0, length(input))`. -/
theorem degenerate_returns_whole_input (xs : List ℚ) (d : Nat)
    (h : xs.length ≤ d) :
    trim_to_loudest_segment_indices xs d = (0, xs.length) :=
  trim_degenerate xs d h

/-- Witness for C3 at the concrete input `xs = [5, 6]`, `d = 7`. -/
theorem degenerate_returns_whole_input_witness :
    ([(5 : ℚ), 6].length ≤ 7) ∧
      trim_to_loudest_segment_indices [(5 : ℚ), 6] 7 = (0, [(5 : ℚ), 6].length) :=
  ⟨by decide, degenerate_returns_whole_input [(5 : ℚ), 6] 7 (by decide)⟩

/-- C1: For `0 ≤ desired_samples < length(input_samples)` the pair
`(start, end)` returned by `trim_to_loudest_segment_indices` has
`end = start + desired_samples`, and the energy of the returned window is
greater than or equal to the energy of `input_samples[j : j + desired_samples]`
for every window start `j ≤ length(input_samples) - desired_samples`. -/
theorem loudest_window_energy_maximal (xs : List ℚ) (d : Nat)
    (hd : d < xs.length) (j : Nat) (hj : j ≤ xs.length - d) :
    (trim_to_loudest_segment_indices xs d).2
        = (trim_to_loudest_segment_indices xs d).1 + d ∧
      windowEnergy xs j d
        ≤ windowEnergy xs (trim_to_loudest_segment_indices xs d).1 d := by
  rw [trim_indices_eq xs d hd]
  obtain ⟨-, h2, h3, -⟩ := scanMax_spec (fun j => windowEnergy xs j d) (xs.length - d)
  exact ⟨rfl, h2 ▸ h3 j hj⟩

/-- Witness for C1 at `xs = [1, 3, 2]`, `d = 2`, `j = 0`: the locator picks the
window starting at 1 (energy 13), which dominates the window at 0 (energy 10). -/
theorem loudest_window_energy_maximal_witness :
    (2 < [(1 : ℚ), 3, 2].length ∧ 0 ≤ [(1 : ℚ), 3, 2].length - 2) ∧
      (trim_to_loudest_segment_indices [(1 : ℚ), 3, 2] 2).2
          = (trim_to_loudest_segment_indices [(1 : ℚ), 3, 2] 2).1 + 2 ∧
        windowEnergy [(1 : ℚ), 3, 2] 0 2
          ≤ windowEnergy [(1 : ℚ), 3, 2]
              (trim_to_loudest_segment_indices [(1 : ℚ), 3, 2] 2).1 2 :=
  ⟨⟨by decide, by decide⟩,
    loudest_window_energy_maximal [(1 : ℚ), 3, 2] 2 (by decide) 0 (by decide)⟩

/-- C2: For `0 ≤ desired_samples < length(input)` the start index returned by
`trim_to_loudest_segment_indices` is the smallest among the starts of windows
attaining the maximum energy: any window start `j` whose energy is at least the
returned window's energy lies at or to the right of the returned start.  In
particular, for input `[1, 1, 1, 1]` and `desired_samples = 2` (all windows
tied) the returned window is `(0, 2)`. -/
theorem loudest_window_leftmost (xs : List ℚ) (d : Nat)
    (hd : d < xs.length) (j : Nat) (hj : j ≤ xs.length - d)
    (hmax : windowEnergy xs (trim_to_loudest_segment_indices xs d).1 d
        ≤ windowEnergy xs j d) :
    (trim_to_loudest_segment_indices xs d).1 ≤ j ∧
      trim_to_loudest_segment_indices [(1 : ℚ), 1, 1, 1] 2 = (0, 2) := by
  refine ⟨?_, by norm_num [trim_to_loudest_segment_indices, locate_fold,
    slideStep, sumSquares, List.range']⟩
  rw [trim_indices_eq xs d hd] at hmax ⊢
  obtain ⟨-, h2, -, h4⟩ := scanMax_spec (fun j => windowEnergy xs j d) (xs.length - d)
  by_contra hlt
  have hjlt := h4 j (by omega)
  rw [h2] at hjlt
  exact absurd hmax (not_le.mpr hjlt)

/-- Witness for C2 at `xs = [0, 5, 0]`, `d = 1`, `j = 1`: the single maximal
window starts at 1, and indeed the returned start 1 is ≤ 1. -/
theorem loudest_window_leftmost_witness :
    (1 < [(0 : ℚ), 5, 0].length ∧ 1 ≤ [(0 : ℚ), 5, 0].length - 1 ∧
        windowEnergy [(0 : ℚ), 5, 0]
            (trim_to_loudest_segment_indices [(0 : ℚ), 5, 0] 1).1 1
          ≤ windowEnergy [(0 : ℚ), 5, 0] 1 1) ∧
      (trim_to_loudest_segment_indices [(0 : ℚ), 5, 0] 1).1 ≤ 1 ∧
        trim_to_loudest_segment_indices [(1 : ℚ), 1, 1, 1] 2 = (0, 2) :=
  ⟨⟨by decide, by decide,
      by norm_num [windowEnergy, trim_to_loudest_segment_indices, locate_fold,
        slideStep, sumSquares, List.range']⟩,
    loudest_window_leftmost [(0 : ℚ), 5, 0] 1 (by decide) 1 (by decide)
      (by norm_num [windowEnergy, trim_to_loudest_segment_indices, locate_fold,
        slideStep, sumSquares, List.range'])⟩

/-- C4: For `0 ≤ desired_samples < length(input)` the incremental
sliding-window implementation returns exactly the same `(start, end)` pair as
the brute-force reference that recomputes every window's sum of squares from
scratch (exact rational arithmetic). -/
theorem incremental_eq_brute_force (xs : List ℚ) (d : Nat)
    (hd : d < xs.length) :
    trim_to_loudest_segment_indices xs d = brute_force_loudest_indices xs d := by
  rw [trim_indices_eq xs d hd]
  unfold brute_force_loudest_indices
  rw [if_neg (by omega)]
  rfl

/-- Witness for C4 at `xs = [2, 0, 1, 3]`, `d = 2`. -/
theorem incremental_eq_brute_force_witness :
    2 < [(2 : ℚ), 0, 1, 3].length ∧
      trim_to_loudest_segment_indices [(2 : ℚ), 0, 1, 3] 2
        = brute_force_loudest_indices [(2 : ℚ), 0, 1, 3] 2 :=
  ⟨by decide, incremental_eq_brute_force [(2 : ℚ), 0, 1, 3] 2 (by decide)⟩

/-- C5: For any input and any `desired_samples`, every loop index `i` visited
by the sliding loop (`i ∈ range(1, input_size - desired_samples + 1)`) makes
both sample accesses `input[i - 1]` and `input[i + desired_samples - 1]`
in-bounds, and the function always returns a range with
`0 ≤ start ≤ end ≤ length(input)`. -/
theorem locator_safety (xs : List ℚ) (d : Nat) (i : Nat) :
    (i ∈ List.range' 1 (xs.length - d) →
        i - 1 < xs.length ∧ i + d - 1 < xs.length) ∧
      (trim_to_loudest_segment_indices xs d).1
          ≤ (trim_to_loudest_segment_indices xs d).2 ∧
        (trim_to_loudest_segment_indices xs d).2 ≤ xs.length := by
  refine ⟨?_, trim_range_valid xs d⟩
  intro hi
  have hmem : 1 ≤ i ∧ i < 1 + (xs.length - d) := List.mem_range'_1.mp hi
  omega

/-- Witness for C5 at `xs = [1, 2, 3]`, `d = 1`, loop index `i = 1`. -/
theorem locator_safety_witness :
    (1 ∈ List.range' 1 ([(1 : ℚ), 2, 3].length - 1) →
        1 - 1 < [(1 : ℚ), 2, 3].length ∧ 1 + 1 - 1 < [(1 : ℚ), 2, 3].length) ∧
      (trim_to_loudest_segment_indices [(1 : ℚ), 2, 3] 1).1
          ≤ (trim_to_loudest_segment_indices [(1 : ℚ), 2, 3] 1).2 ∧
        (trim_to_loudest_segment_indices [(1 : ℚ), 2, 3] 1).2
          ≤ [(1 : ℚ), 2, 3].length :=
  locator_safety [(1 : ℚ), 2, 3] 1 1

/-- C10: `trim_to_loudest_segment` and `trim_to_loudest_segment_indices` are
extensionally equal — their Python bodies are identical, so the embeddings are
definitionally the same function. -/
theorem segment_functions_extensionally_equal (xs : List ℚ) (d : Nat) :
    trim_to_loudest_segment xs d = trim_to_loudest_segment_indices xs d := rfl

/-- Per-frame arithmetic mean across channels, one step of
`wav_samples.mean(axis=1)` (source line 120). -/
def monoMean (frame : List ℚ) : ℚ := frame.sum / frame.length

/-- The Mono Reduction: `wav_samples.mean(axis=1)` (source line 120) applied
to a frames × channels buffer. -/
def mono_of (wav_samples : List (List ℚ)) : List ℚ := wav_samples.map monoMean

/-- Arithmetic mean of absolute values, `np.mean(np.abs(xs))`
(source line 129), the gating volume metric. -/
def meanAbs (xs : List ℚ) : ℚ := (xs.map (fun x => |x|)).sum / xs.length

/-- Python `int()` applied to an exact division result: truncation toward
zero. -/
def py_int_trunc (q : ℚ) : Int := if q < 0 then Int.ceil q else Int.floor q

/-- Computes `desired_samples = int((desired_length_ms * sample_rate) / 1000)`
(source line 122), with the true division taken exactly and the result
(always nonnegative here) used as a `Nat`. -/
def desired_samples_of (desired_length_ms sample_rate : Nat) : Nat :=
  (py_int_trunc (((desired_length_ms : ℚ) * sample_rate) / 1000)).toNat

/-- The pure core of `trim_file` (source lines 119–141), from a decoded sample
buffer and sample rate to either `none` (skipped as too quiet, no file
written) or `some` of the buffer and sample rate passed to the encoder.
Python's slice `a[start:end]` is `(a.drop start).take (end - start)`. -/
def trim_file_core (wav_samples : List (List ℚ)) (sample_rate : Nat)
    (desired_length_ms : Nat) (min_volume : ℚ) :
    Option (List (List ℚ) × Nat) :=
  let mono_samples := mono_of wav_samples
  let ds := desired_samples_of desired_length_ms sample_rate
  let se := trim_to_loudest_segment_indices mono_samples ds
  let trimmed_mono := (mono_samples.drop se.1).take (se.2 - se.1)
  if meanAbs trimmed_mono < min_volume then none
  else some ((wav_samples.drop se.1).take (se.2 - se.1), sample_rate)

lemma mono_of_length (wav_samples : List (List ℚ)) :
    (mono_of wav_samples).length = wav_samples.length := by
  simp [mono_of]

/-- C6: If the mean absolute value of the mono reduction over the located
window `[start, end)` is strictly below `min_volume`, `trim_file` writes no
output (the core returns `none`, a normal skip); moreover the gating metric
`meanAbs` is a different function from the locator's ranking metric
`sumSquares` (they already disagree on the one-sample window `[2]`). -/
theorem quiet_segment_writes_no_output (wav_samples : List (List ℚ))
    (sample_rate desired_length_ms : Nat) (min_volume : ℚ)
    (h : meanAbs (((mono_of wav_samples).drop
          (trim_to_loudest_segment_indices (mono_of wav_samples)
            (desired_samples_of desired_length_ms sample_rate)).1).take
          ((trim_to_loudest_segment_indices (mono_of wav_samples)
              (desired_samples_of desired_length_ms sample_rate)).2
            - (trim_to_loudest_segment_indices (mono_of wav_samples)
                (desired_samples_of desired_length_ms sample_rate)).1))
        < min_volume) :
    trim_file_core wav_samples sample_rate desired_length_ms min_volume = none ∧
      meanAbs [(2 : ℚ)] ≠ sumSquares [(2 : ℚ)] := by
  constructor
  · simp only [trim_file_core]
    rw [if_pos h]
  · norm_num [meanAbs, sumSquares]

/-- Witness for C6: a two-frame all-zero mono file with `min_volume = 1` is
skipped. -/
theorem quiet_segment_writes_no_output_witness :
    meanAbs (((mono_of [[(0 : ℚ)], [(0 : ℚ)]]).drop
          (trim_to_loudest_segment_indices (mono_of [[(0 : ℚ)], [(0 : ℚ)]])
            (desired_samples_of 1 1000)).1).take
          ((trim_to_loudest_segment_indices (mono_of [[(0 : ℚ)], [(0 : ℚ)]])
              (desired_samples_of 1 1000)).2
            - (trim_to_loudest_segment_indices (mono_of [[(0 : ℚ)], [(0 : ℚ)]])
                (desired_samples_of 1 1000)).1)) < 1 ∧
      trim_file_core [[(0 : ℚ)], [(0 : ℚ)]] 1000 1 1 = none ∧
        meanAbs [(2 : ℚ)] ≠ sumSquares [(2 : ℚ)] :=
  ⟨by norm_num [meanAbs, mono_of, monoMean, desired_samples_of, py_int_trunc,
      trim_to_loudest_segment_indices, locate_fold, slideStep, sumSquares,
      List.range'],
    quiet_segment_writes_no_output [[(0 : ℚ)], [(0 : ℚ)]] 1000 1 1
      (by norm_num [meanAbs, mono_of, monoMean, desired_samples_of, py_int_trunc,
        trim_to_loudest_segment_indices, locate_fold, slideStep, sumSquares,
        List.range'])⟩

/-- C7: When `trim_file` does write an output, the written buffer is exactly
the original multi-channel buffer restricted to the frame range
`[start, end)`: every output frame `f - start` equals input frame `f` (all
channels, unmodified), the output has `end - start` frames, and the sample
rate is passed through unchanged. -/
theorem output_preserves_frames (wav_samples : List (List ℚ))
    (sample_rate desired_length_ms : Nat) (min_volume : ℚ)
    (out : List (List ℚ) × Nat)
    (h : trim_file_core wav_samples sample_rate desired_length_ms min_volume
        = some out)
    (f : Nat)
    (hf1 : (trim_to_loudest_segment_indices (mono_of wav_samples)
        (desired_samples_of desired_length_ms sample_rate)).1 ≤ f)
    (hf2 : f < (trim_to_loudest_segment_indices (mono_of wav_samples)
        (desired_samples_of desired_length_ms sample_rate)).2) :
    out.1.getD
        (f - (trim_to_loudest_segment_indices (mono_of wav_samples)
          (desired_samples_of desired_length_ms sample_rate)).1) []
        = wav_samples.getD f [] ∧
      out.1.length
          = (trim_to_loudest_segment_indices (mono_of wav_samples)
              (desired_samples_of desired_length_ms sample_rate)).2
            - (trim_to_loudest_segment_indices (mono_of wav_samples)
                (desired_samples_of desired_length_ms sample_rate)).1 ∧
        out.2 = sample_rate := by
  have hrange := trim_range_valid (mono_of wav_samples)
    (desired_samples_of desired_length_ms sample_rate)
  rw [mono_of_length wav_samples] at hrange
  simp only [trim_file_core] at h
  by_cases hq : meanAbs (((mono_of wav_samples).drop
      (trim_to_loudest_segment_indices (mono_of wav_samples)
        (desired_samples_of desired_length_ms sample_rate)).1).take
      ((trim_to_loudest_segment_indices (mono_of wav_samples)
          (desired_samples_of desired_length_ms sample_rate)).2
        - (trim_to_loudest_segment_indices (mono_of wav_samples)
            (desired_samples_of desired_length_ms sample_rate)).1))
      < min_volume
  · rw [if_pos hq] at h
    exact absurd h (by simp)
  · rw [if_neg hq] at h
    have hout := (Option.some.injEq _ _).mp h
    subst hout
    refine ⟨?_, ?_, rfl⟩
    · rw [List.getD_eq_getElem?_getD, List.getD_eq_getElem?_getD,
        List.getElem?_take_of_lt (by omega), List.getElem?_drop]
      have hsf : (trim_to_loudest_segment_indices (mono_of wav_samples)
          (desired_samples_of desired_length_ms sample_rate)).1
          + (f - (trim_to_loudest_segment_indices (mono_of wav_samples)
              (desired_samples_of desired_length_ms sample_rate)).1) = f := by
        omega
      rw [hsf]
    · simp only [List.length_take, List.length_drop]
      omega

/-- Witness for C7: the file `[[1], [2]]` at 1000 Hz with a 1 ms window and
threshold 0 writes the single loudest frame `[[2]]` at the same rate. -/
theorem output_preserves_frames_witness :
    (trim_file_core [[(1 : ℚ)], [(2 : ℚ)]] 1000 1 0 = some ([[(2 : ℚ)]], 1000) ∧
        (trim_to_loudest_segment_indices (mono_of [[(1 : ℚ)], [(2 : ℚ)]])
            (desired_samples_of 1 1000)).1 ≤ 1 ∧
          1 < (trim_to_loudest_segment_indices (mono_of [[(1 : ℚ)], [(2 : ℚ)]])
            (desired_samples_of 1 1000)).2) ∧
      ([[(2 : ℚ)]], (1000 : Nat)).1.getD
          (1 - (trim_to_loudest_segment_indices (mono_of [[(1 : ℚ)], [(2 : ℚ)]])
            (desired_samples_of 1 1000)).1) []
          = [[(1 : ℚ)], [(2 : ℚ)]].getD 1 [] ∧
        ([[(2 : ℚ)]], (1000 : Nat)).1.length
            = (trim_to_loudest_segment_indices (mono_of [[(1 : ℚ)], [(2 : ℚ)]])
                (desired_samples_of 1 1000)).2
              - (trim_to_loudest_segment_indices (mono_of [[(1 : ℚ)], [(2 : ℚ)]])
                  (desired_samples_of 1 1000)).1 ∧
          ([[(2 : ℚ)]], (1000 : Nat)).2 = 1000 :=
  ⟨⟨by norm_num [trim_file_core, meanAbs, mono_of, monoMean, desired_samples_of,
      py_int_trunc, trim_to_loudest_segment_indices, locate_fold, slideStep,
      sumSquares, List.range'],
    by norm_num [mono_of, monoMean, desired_samples_of, py_int_trunc,
      trim_to_loudest_segment_indices, locate_fold, slideStep, sumSquares,
      List.range'],
    by norm_num [mono_of, monoMean, desired_samples_of, py_int_trunc,
      trim_to_loudest_segment_indices, locate_fold, slideStep, sumSquares,
      List.range']⟩,
    output_preserves_frames [[(1 : ℚ)], [(2 : ℚ)]] 1000 1 0 ([[(2 : ℚ)]], 1000)
      (by norm_num [trim_file_core, meanAbs, mono_of, monoMean,
        desired_samples_of, py_int_trunc, trim_to_loudest_segment_indices,
        locate_fold, slideStep, sumSquares, List.range'])
      1
      (by norm_num [mono_of, monoMean, desired_samples_of, py_int_trunc,
        trim_to_loudest_segment_indices, locate_fold, slideStep, sumSquares,
        List.range'])
      (by norm_num [mono_of, monoMean, desired_samples_of, py_int_trunc,
        trim_to_loudest_segment_indices, locate_fold, slideStep, sumSquares,
        List.range'])⟩

/-- C8: `trim_file` computes the window length as
`floor(desired_length_ms * sample_rate / 1000)`: Python's `int()` truncation
of the exact true-division result equals the floor for these nonnegative
operands. -/
theorem desired_samples_is_floor (desired_length_ms sample_rate : Nat)
    (hr : 0 < sample_rate) :
    desired_samples_of desired_length_ms sample_rate
      = Nat.floor (((desired_length_ms : ℚ) * sample_rate) / 1000) := by
  unfold desired_samples_of py_int_trunc
  have hq : (0 : ℚ) ≤ (desired_length_ms : ℚ) * sample_rate / 1000 := by
    positivity
  rw [if_neg (not_lt.mpr hq), Int.floor_toNat]

/-- Witness for C8 at `desired_length_ms = 1`, `sample_rate = 1500` (the
division truncates: `1500 / 1000` floors to 1). -/
theorem desired_samples_is_floor_witness :
    0 < 1500 ∧
      desired_samples_of 1 1500 = Nat.floor (((1 : ℚ) * 1500) / 1000) :=
  ⟨by decide, desired_samples_is_floor 1 1500 (by decide)⟩

/-- Return value of `main` (source lines 160–186): `-1` when fewer than two
user arguments are present (`len(sys.argv) < 3`), else `0` once the batch
loop finishes. -/
def main_ret (argv : List String) : Int :=
  if argv.length < 3 then -1 else 0

/-- The module entry point (source lines 188–189) is
`if __name__ == "__main__": main()`: the return value of `main` is evaluated
and discarded, and a CPython process that finishes without an uncaught
exception or an explicit `sys.exit` call exits with status 0. -/
def process_exit_status (argv : List String) : Int :=
  let _ := main_ret argv
  0

/-- C9: the claim's success half holds (two arguments give exit status 0),
but its usage-error half fails on this code: `main` does return `-1` on
fewer than two arguments, yet the entry point discards that value instead of
passing it to `sys.exit`, so the process still exits with status 0, not a
nonzero status. -/
theorem usage_error_exit_status :
    main_ret ["extract_loudest_section_python.py"] = -1 ∧
      process_exit_status ["extract_loudest_section_python.py"] = 0 ∧
        process_exit_status
          ["extract_loudest_section_python.py", "in.wav", "out_dir"] = 0 := by
  refine ⟨?_, rfl, rfl⟩
  decide

end ExtractLoudest
